import Mathlib

/-!
Verification of the muchovha-agentic-os core: a shallow embedding of the
agent orchestration loop (app/agent/loop.py), the tool registry
(app/agent/tools.py), the conversation history store (app/history.py),
the health monitor (app/monitor.py) and the configuration singleton
(app/config.py), with theorems settling the specified behavioural
properties of these components.
-/

namespace Muchovha

/-- Python list slicing l[-k:], as used by Session.trim (loop.py line 107)
and HealthMonitor._add_alert (monitor.py line 124). For k = 0 Python's
-0 is 0, so l[-0:] = l[0:] is the whole list, not the empty list. -/
def takeLast (l : List α) (k : Nat) : List α :=
  if k = 0 then l else l.drop (l.length - k)

-- ───────────────────────── app/config.py ─────────────────────────

/-- AIConfig from app/config.py (a frozen dataclass). The fields are
exactly the five declared ones; api_key comes from the environment and is
a parameter here. Note: the dataclass declares no max_agent_iterations
field, although loop.py line 230 reads config.ai.max_agent_iterations. -/
structure AIConfig where
  api_key : String
  model : String
  max_history_turns : Nat
  summary_threshold : Nat
  max_output_tokens : Nat
deriving DecidableEq

/-- The module-level singleton config.ai, given the GEMINI_API_KEY
environment value. -/
def AIConfig.default (apiKey : String) : AIConfig :=
  ⟨apiKey, "gemini-3-flash-preview", 20, 16, 4096⟩

inductive ConfigValue
  | str (s : String)
  | int (n : Nat)
deriving DecidableEq

/-- Python attribute lookup on an AIConfig instance: it yields the value
of each of the five declared dataclass fields, and AttributeError (none)
for any other name. -/
def AIConfig.getattr (c : AIConfig) : String → Option ConfigValue
  | "api_key" => some (.str c.api_key)
  | "model" => some (.str c.model)
  | "max_history_turns" => some (.int c.max_history_turns)
  | "summary_threshold" => some (.int c.summary_threshold)
  | "max_output_tokens" => some (.int c.max_output_tokens)
  | _ => none

-- ─────────────────────── app/agent/tools.py ───────────────────────

/-- Tool-call arguments: the dict built from fc.args (values are kept
abstract as strings). -/
abbrev Args := List (String × String)

/-- JSON string escaping for the characters json.dumps escapes in the
error payloads built by ToolRegistry.execute (quote, backslash and the
common control characters). -/
def jsonEscapeChar (c : Char) : String :=
  if c = Char.ofNat 34 then "\\\""
  else if c = Char.ofNat 92 then "\\\\"
  else if c = Char.ofNat 10 then "\\n"
  else if c = Char.ofNat 13 then "\\r"
  else if c = Char.ofNat 9 then "\\t"
  else String.singleton c

def jsonEscape (s : String) : String :=
  String.join (s.toList.map jsonEscapeChar)

/-- json.dumps of a single-key dict with key "error": the structured
error payload that ToolRegistry.execute returns instead of raising. -/
def jsonError (msg : String) : String :=
  "\x7b\"error\": \"" ++ jsonEscape msg ++ "\"\x7d"

/-- Does a string carry the structured error shape (a JSON object whose
sole field is "error")? -/
def isErrorPayload (s : String) : Bool :=
  s.startsWith "\x7b\"error\": \""

structure ToolParam where
  name : String
  type : String
  description : String
  required : Bool
  enum : Option (List String)
deriving DecidableEq

/-- A tool definition (tools.py). The Python handler is an async callable
that may raise; it is modelled as a function into Except, where error is
the raised exception's message. -/
structure ToolDef where
  name : String
  description : String
  parameters : List ToolParam
  handler : Args → Except String String

/-- The registry's Python dict from name to ToolDef: insertion ordered,
assignment to an existing key overwrites in place. -/
structure ToolRegistry where
  tools : List (String × ToolDef)

def ToolRegistry.register (reg : ToolRegistry) (t : ToolDef) : ToolRegistry :=
  if (reg.tools.find? fun p => p.1 == t.name).isSome then
    ⟨reg.tools.map fun p => if p.1 == t.name then (p.1, t) else p⟩
  else ⟨reg.tools ++ [(t.name, t)]⟩

def ToolRegistry.get (reg : ToolRegistry) (name : String) : Option ToolDef :=
  (reg.tools.find? fun p => p.1 == name).map Prod.snd

/-- ToolRegistry.execute (tools.py lines 81-91): dispatch by name; an
unknown name and a raising handler both produce the structured JSON
error payload. The function is total — it never propagates an
exception. -/
def ToolRegistry.execute (reg : ToolRegistry) (name : String) (args : Args) : String :=
  match reg.get name with
  | none => jsonError ("Unknown tool: " ++ name)
  | some tool =>
    match tool.handler args with
    | .ok result => result
    | .error e => jsonError e

-- ─────────────────────── app/agent/loop.py ───────────────────────

structure FunctionCall where
  name : String
  args : Args
deriving DecidableEq

/-- The result_data stored in a FunctionResponse: either the decoded
JSON of the (truncated) result string, or the fallback wrapper dict with
key "output" when json.loads raises JSONDecodeError. -/
inductive FnResult
  | data (s : String)
  | output (s : String)
deriving DecidableEq

/-- A genai content part, with the fields loop.py reads or writes: text,
the thought flag, a function call, a function response, the opaque
thought signature (continuation token) and inline bytes data. -/
structure Part where
  text : Option String
  thought : Bool
  functionCall : Option FunctionCall
  functionResponse : Option (String × FnResult)
  thoughtSignature : Option String
  inlineData : Option (String × String)
deriving DecidableEq

def Part.mkText (t : String) : Part := ⟨some t, false, none, none, none, none⟩

/-- Part.from_bytes(data, mime_type). -/
def Part.mkInline (mime data : String) : Part := ⟨none, false, none, none, none, some (mime, data)⟩

def Part.mkFunctionResponse (name : String) (r : FnResult) : Part :=
  ⟨none, false, none, some (name, r), none, none⟩

structure Content where
  role : String
  parts : List Part
deriving DecidableEq

structure Attachment where
  mime_type : String
  data : String
  name : String
deriving DecidableEq

/-- Session (loop.py lines 68-111): raw Content objects stored as-is so
thought_signature fields are preserved across turns. -/
structure Session where
  session_id : String
  messages : List Content
deriving DecidableEq

def Session.add_user_content (s : Session) (parts : List Part) : Session :=
  { s with messages := s.messages ++ [⟨"user", parts⟩] }

/-- add_model_content stores the model's raw Content unchanged. -/
def Session.add_model_content (s : Session) (c : Content) : Session :=
  { s with messages := s.messages ++ [c] }

/-- add_function_responses: all function responses of one iteration become
a single user turn. -/
def Session.add_function_responses (s : Session) (rs : List (String × FnResult)) : Session :=
  { s with messages := s.messages ++ [⟨"user", rs.map fun p => Part.mkFunctionResponse p.1 p.2⟩] }

/-- to_contents returns the stored messages as-is. -/
def Session.to_contents (s : Session) : List Content := s.messages

/-- Session.trim: python messages[-(max_turns*2):] under the guard
len(messages) > max_turns*2 (see takeLast for the -0 edge case). -/
def Session.trim (s : Session) (max_turns : Nat) : Session :=
  if s.messages.length > max_turns * 2 then
    { s with messages := takeLast s.messages (max_turns * 2) }
  else s

/-- The typed events AgentLoop.run yields for SSE streaming, with the
payload fields the source attaches to each. -/
inductive AgentEvent
  | status (s : String)
  | thought (text : String)
  | tool_call (tool : String) (args : Args)
  | tool_result (tool : String) (result : String)
  | text (t : String)
  | error (e : String)
  | done
deriving DecidableEq

structure ModelResponse where
  candidates : List Content
deriving DecidableEq

/-- The external collaborators of AgentLoop.run: the Gemini backend
(indexed by model-call number; error = the generate call raised), the
cancellation flag value observed at each cooperative checkpoint (indexed
in checkpoint order; a positive check discards the mark and returns, as
in the source), whether json.loads succeeds on a given result string,
the tool registry, and the api key feeding the config singleton. -/
structure LoopParams where
  apiKey : String
  tools : ToolRegistry
  backend : Nat → Except String ModelResponse
  cancelSignal : Nat → Bool
  jsonOk : String → Bool

/-- The observable state of one AgentLoop.run invocation: the session,
the next checkpoint index, the number of generate calls issued so far,
the events yielded so far, and the tool executions actually performed
(name and args, in execution order). -/
structure LoopState where
  session : Session
  ck : Nat
  calls : Nat
  events : List AgentEvent
  executed : List (String × Args)
deriving DecidableEq

def stoppedMsg : String := "Agent stopped by user."

def apos : String := String.singleton (Char.ofNat 39)

/-- The fixed fallback message of loop.py line 375. -/
def maxIterMsg : String :=
  "Reached maximum iterations. Here" ++ apos ++ "s what I" ++ apos ++ "ve done so far."

/-- Python truthiness of part.text (None and "" are falsy). -/
def textTruthy (p : Part) : Bool := p.text.getD "" != ""

/-- Truncation of very long tool results (loop.py lines 334-335). -/
def truncateResult (s : String) : String :=
  if s.length > 8000 then s.take 8000 ++ "\n... (truncated)" else s

/-- The classification accumulators of one cycle (loop.py lines 301-304). -/
structure PartAcc where
  hasTC : Bool
  texts : List String
  thoughts : List String
  frs : List (String × FnResult)
deriving DecidableEq

def PartAcc.init : PartAcc := ⟨false, [], [], []⟩

/-- The for-loop over candidate.content.parts (loop.py lines 306-351),
including its early return on the cancellation check performed before
each tool execution. Returns (state, accumulators, stoppedEarly). -/
def processParts (L : LoopParams) : List Part → LoopState → PartAcc → (LoopState × PartAcc × Bool)
  | [], st, acc => (st, acc, false)
  | p :: rest, st, acc =>
    if p.thought && textTruthy p then
      processParts L rest st { acc with thoughts := acc.thoughts ++ [p.text.getD ""] }
    else
      match p.functionCall with
      | some fc =>
        let st1 : LoopState :=
          { st with events := st.events ++ [.tool_call fc.name fc.args] }
        let c := L.cancelSignal st1.ck
        let st2 : LoopState := { st1 with ck := st1.ck + 1 }
        if c then
          ({ st2 with events := st2.events ++ [.text stoppedMsg, .done] },
           { acc with hasTC := true }, true)
        else
          let rs := truncateResult (L.tools.execute fc.name fc.args)
          let st3 : LoopState :=
            { st2 with events := st2.events ++ [.tool_result fc.name rs],
                       executed := st2.executed ++ [(fc.name, fc.args)] }
          let fr := if L.jsonOk rs then FnResult.data rs else FnResult.output rs
          processParts L rest st3
            { acc with hasTC := true, frs := acc.frs ++ [(fc.name, fr)] }
      | none =>
        if textTruthy p then
          processParts L rest st { acc with texts := acc.texts ++ [p.text.getD ""] }
        else
          processParts L rest st acc

inductive CycleOutcome
  | stopped
  | finished
  | next
deriving DecidableEq

def joinLines (l : List String) : String := String.intercalate "\n" l

/-- Lines 301-372 of loop.py: classify one candidate's parts, emit the
collected thought event after the part loop, and either terminate (no
tool calls: final text plus done; cancelled: already stopped) or append
the batched function responses as a single turn and continue. The
add_model_content call happens in the caller, as at source line 288. -/
def cycleStep (L : LoopParams) (parts : List Part) (st : LoopState) :
    LoopState × CycleOutcome :=
  match processParts L parts st PartAcc.init with
  | (st1, acc, stopped) =>
    if stopped then (st1, .stopped)
    else
      let st2 := if acc.thoughts.isEmpty then st1
        else { st1 with events := st1.events ++ [.thought (joinLines acc.thoughts)] }
      if !acc.hasTC then
        ({ st2 with events := st2.events ++ [.text (joinLines acc.texts), .done] }, .finished)
      else
        let st3 := if acc.frs.isEmpty then st2
          else { st2 with session := st2.session.add_function_responses acc.frs }
        let st4 := if acc.texts.isEmpty then st3
          else { st3 with events := st3.events ++ [.thought (joinLines acc.texts)] }
        (st4, .next)

/-- The while-loop of AgentLoop.run (loop.py lines 257-376), with the
remaining iteration budget as the decreasing argument. Each pass checks
cancellation, issues one generate call, stores the model content raw,
and runs the cycle classification; budget exhaustion emits the fixed
fallback message and done. -/
def runCycles (L : LoopParams) : Nat → LoopState → LoopState
  | 0, st => { st with events := st.events ++ [.text maxIterMsg, .done] }
  | b + 1, st =>
    let c := L.cancelSignal st.ck
    let st1 : LoopState := { st with ck := st.ck + 1 }
    if c then { st1 with events := st1.events ++ [.text stoppedMsg, .done] }
    else
      match L.backend st1.calls with
      | .error e =>
        { st1 with calls := st1.calls + 1, events := st1.events ++ [.error e] }
      | .ok resp =>
        let st2 : LoopState := { st1 with calls := st1.calls + 1 }
        match resp.candidates with
        | [] => { st2 with events := st2.events ++ [.error "No response from model"] }
        | cand :: _ =>
          let st3 : LoopState := { st2 with session := st2.session.add_model_content cand }
          match cycleStep L cand.parts st3 with
          | (st4, .next) => runCycles L b st4
          | (st4, _) => st4

/-- Lines 201-227 of AgentLoop.run: compose the user parts (active skills
context, goal text, attachments), append the user turn, trim to the
config singleton's max_history_turns, and emit the initial status
event. -/
def runPreamble (L : LoopParams) (goal activeCtx : String)
    (atts : List Attachment) (s : Session) : LoopState :=
  let userText := if activeCtx != "" then
      (if goal != "" then activeCtx ++ "\n\n" ++ goal else activeCtx)
    else goal
  let userParts : List Part :=
    (if userText != "" then [Part.mkText userText] else [])
      ++ atts.map fun a => Part.mkInline a.mime_type a.data
  let userParts := if userParts.isEmpty then [Part.mkText ""] else userParts
  let s1 := (s.add_user_content userParts).trim (AIConfig.default L.apiKey).max_history_turns
  ⟨s1, 0, 0, [.status "thinking"], []⟩

/-- AgentLoop.run with the iteration budget supplied as a parameter. The
source reads the budget from config.ai.max_agent_iterations, a config
field that does not exist (see runActual and claim C1); this function is
the loop as it behaves for a given budget value. -/
def runWithMaxIter (L : LoopParams) (maxIter : Nat) (goal activeCtx : String)
    (atts : List Attachment) (s : Session) : LoopState :=
  runCycles L maxIter (runPreamble L goal activeCtx atts s)

/-- AgentLoop.run exactly as written: after the preamble it evaluates
config.ai.max_agent_iterations (loop.py line 230). AIConfig declares no
such field, so the attribute lookup fails and the generator raises
AttributeError having yielded only the initial status event. The second
component is the uncaught exception, if any. -/
def runActual (L : LoopParams) (goal activeCtx : String)
    (atts : List Attachment) (s : Session) : LoopState × Option String :=
  let st := runPreamble L goal activeCtx atts s
  match (AIConfig.default L.apiKey).getattr "max_agent_iterations" with
  | none => (st, some "AttributeError: max_agent_iterations")
  | some (.int n) => (runCycles L n st, none)
  | some (.str _) => (st, some "TypeError: iteration budget is not an int")

/-- The operations a Session undergoes, for stating history-preservation
properties over arbitrary interleavings. -/
inductive SessionOp
  | user (parts : List Part)
  | model (c : Content)
  | funcResponses (rs : List (String × FnResult))
  | trimOp (max_turns : Nat)
deriving DecidableEq

def SessionOp.isTrim : SessionOp → Bool
  | .trimOp _ => true
  | _ => false

def Session.applyOp (s : Session) : SessionOp → Session
  | .user parts => s.add_user_content parts
  | .model c => s.add_model_content c
  | .funcResponses rs => s.add_function_responses rs
  | .trimOp m => s.trim m

def Session.applyOps (s : Session) : List SessionOp → Session
  | [] => s
  | op :: ops => (s.applyOp op).applyOps ops

-- ───────────────────────── app/history.py ─────────────────────────

inductive Role
  | user
  | model
deriving DecidableEq

structure MediaAttachment where
  mime_type : String
  data : String
  label : String
deriving DecidableEq

/-- Message from history.py. The timestamp (time.time()) and the
diagnostic metadata dict are not read by the compaction logic verified
here and are omitted from the embedding. -/
structure Message where
  role : Role
  text : String
  attachments : List MediaAttachment
deriving DecidableEq

structure ConversationSummary where
  text : String
  turn_count : Nat
deriving DecidableEq

structure ConversationHistory where
  session_id : String
  max_turns : Nat
  summary_threshold : Nat
  messages : List Message
  summary : Option ConversationSummary
deriving DecidableEq

/-- One line of ConversationHistory._compress: role label, truncation to
200 characters, terminal-history stripping, attachment annotation. -/
def compressLine (msg : Message) : String :=
  let who := if msg.role = Role.user then "User" else "Assistant"
  let text := msg.text
  let text := if text.length > 200 then text.take 200 ++ "…" else text
  let text :=
    if (text.splitOn "<terminal_history>").length > 1 then
      "[terminal context provided] "
        ++ ((text.splitOn "</terminal_history>").getLastD "").trim
    else text
  let text :=
    if msg.attachments.isEmpty then text
    else "[attached: "
        ++ String.intercalate ", "
            (msg.attachments.map fun a => if a.label != "" then a.label else a.mime_type)
        ++ "] " ++ text
  "- " ++ who ++ ": " ++ text

/-- ConversationHistory._compress: the deterministic local digest. -/
def compress (messages : List Message) : String :=
  String.intercalate "\n" (messages.map compressLine)

/-- The summary's compacted-turn counter, 0 when no summary exists. -/
def summaryCount (h : ConversationHistory) : Nat :=
  (h.summary.map ConversationSummary.turn_count).getD 0

/-- ConversationHistory._maybe_trim (history.py lines 219-246). Python's
overflow = len - summary_threshold with the overflow <= 0 early return
is the second guard here. -/
def maybeTrim (h : ConversationHistory) : ConversationHistory :=
  if h.messages.length ≤ h.max_turns then h
  else if h.messages.length ≤ h.summary_threshold then h
  else
    let ov := h.messages.length - h.summary_threshold
    let old := h.messages.take ov
    let live := h.messages.drop ov
    let lines := compress old
    let prevCount := summaryCount h
    let prevText := match h.summary with
      | some s0 => s0.text ++ "\n\n"
      | none => ""
    { h with messages := live,
             summary := some ⟨prevText ++ lines, prevCount + old.length⟩ }

-- ───────────────────────── app/monitor.py ─────────────────────────

inductive Severity
  | info
  | warning
  | critical
deriving DecidableEq

structure Alert where
  id : String
  severity : Severity
  category : String
  title : String
  detail : String
  timestamp : Nat
  resolved : Bool
  auto_healed : Bool
  agent_response : String
deriving DecidableEq

/-- HealthMonitor state. CPU percentages and thresholds are Python floats
in the source; they are modelled as rationals (every value exercised in
this development is exactly representable as a binary float, so float
and rational comparison agree). now is the ambient int(time.time())
clock read by _make_alert_id. The agent callback may raise (error) and
may return None (ok none). -/
structure MonitorState where
  enabled : Bool
  auto_heal : Bool
  alerts : List Alert
  max_alerts : Nat
  cpu_warn : Rat
  cpu_crit : Rat
  mem_warn : Rat
  mem_crit : Rat
  disk_warn : Rat
  disk_crit : Rat
  alert_counter : Nat
  now : Nat
  agent_callback : Option (String → Except String (Option String))

/-- HealthMonitor.__init__ defaults (with the ambient clock at 0 and no
callback registered). -/
def initMonitor : MonitorState :=
  ⟨true, false, [], 100, 15, 50, 30, 70, 40, 80, 0, 0, none⟩

/-- _make_alert_id. -/
def makeAlertId (st : MonitorState) : MonitorState × String :=
  let counter := st.alert_counter + 1
  ({ st with alert_counter := counter },
   "alert-" ++ toString st.now ++ "-" ++ toString counter)

/-- _add_alert (monitor.py lines 106-127): deduplicate on an unresolved
(category, title) pair, else append a fresh alert and cap the list
(python alerts[-max_alerts:], see takeLast). It returns the id of the
tracked alert, standing for the aliased Alert object Python returns. -/
def addAlert (st : MonitorState) (sev : Severity) (cat title detail : String) :
    MonitorState × String :=
  match st.alerts.find? fun a => !a.resolved && a.category == cat && a.title == title with
  | some a => (st, a.id)
  | none =>
    let p := makeAlertId st
    let alert : Alert := ⟨p.2, sev, cat, title, detail, st.now, false, false, ""⟩
    let alerts := p.1.alerts ++ [alert]
    let alerts := if alerts.length > p.1.max_alerts then takeLast alerts p.1.max_alerts else alerts
    ({ p.1 with alerts := alerts }, p.2)

/-- _resolve_alerts. -/
def resolveAlerts (st : MonitorState) (cat title : String) : MonitorState :=
  { st with alerts := st.alerts.map fun a =>
      if !a.resolved && a.category == cat && a.title == title then
        { a with resolved := true }
      else a }

/-- In-place mutation of the aliased Alert object, addressed by id. -/
def updateAlert (st : MonitorState) (id : String) (f : Alert → Alert) : MonitorState :=
  { st with alerts := st.alerts.map fun a => if a.id == id then f a else a }

/-- _maybe_auto_heal (monitor.py lines 258-270). The returned Nat counts
the callback invocations this call performs (0 or 1). A raising callback
is caught and logged; the auto_healed flag was already set before the
invocation and stays set. -/
def maybeAutoHeal (st : MonitorState) (alertId goal : String) : MonitorState × Nat :=
  match st.agent_callback, st.alerts.find? fun a => a.id == alertId with
  | some cb, some a =>
    if !st.auto_heal || a.auto_healed then (st, 0)
    else
      let st1 := updateAlert st alertId fun x => { x with auto_healed := true }
      match cb goal with
      | .ok r => (updateAlert st1 alertId fun x => { x with agent_response := r.getD "" }, 1)
      | .error _ => (st1, 1)
  | _, _ => (st, 0)

structure CpuStats where
  usage_percent : Rat
  load_1m : Rat
  load_5m : Rat
  load_15m : Rat
deriving DecidableEq

/-- Python .0f float formatting, modelled as round to nearest integer,
floor(x + 1/2), computed on the numerator and denominator (Python rounds
ties half-even; no value used in this development is a tie or
negative). -/
def fmtF0 (x : Rat) : String := toString ((2 * x.num + x.den).fdiv (2 * x.den))

/-- Python .1f float formatting (one decimal place), same caveat. -/
def fmtF1 (x : Rat) : String :=
  let n := (20 * x.num + x.den).fdiv (2 * x.den)
  toString (n / 10) ++ "." ++ toString (n % 10)

/-- Python str() of a float threshold; the thresholds used here are
integral, so this prints n.0 as Python does. -/
def fmtFloat (x : Rat) : String :=
  if x.den = 1 then toString x.num ++ ".0" else toString x

/-- The CPU section of HealthMonitor._check_health (monitor.py lines
170-188): two-level hysteresis. At or above cpu_crit raise/keep a
critical alert and attempt auto-heal; between cpu_warn and cpu_crit
raise/keep a warning alert; below cpu_warn resolve both. -/
def cpuCheck (st : MonitorState) (cpu : CpuStats) : MonitorState :=
  if st.cpu_crit ≤ cpu.usage_percent then
    let p := addAlert st .critical "cpu" "CPU critically high"
      ("CPU at " ++ fmtF0 cpu.usage_percent ++ "% (threshold: " ++ fmtFloat st.cpu_crit ++ "%)")
    (maybeAutoHeal p.1 p.2
      ("CRITICAL: CPU usage is at " ++ fmtF0 cpu.usage_percent ++ "%. "
        ++ "Load averages: " ++ fmtF1 cpu.load_1m ++ ", " ++ fmtF1 cpu.load_5m
        ++ ", " ++ fmtF1 cpu.load_15m ++ ". "
        ++ "Investigate which processes are consuming CPU and suggest actions to reduce load.")).1
  else if st.cpu_warn ≤ cpu.usage_percent then
    (addAlert st .warning "cpu" "CPU high"
      ("CPU at " ++ fmtF0 cpu.usage_percent ++ "% (threshold: " ++ fmtFloat st.cpu_warn ++ "%)")).1
  else
    resolveAlerts (resolveAlerts st "cpu" "CPU critically high") "cpu" "CPU high"

/-- A CPU sample carrying only a usage percentage (zero load averages). -/
def cpuOnly (u : Rat) : CpuStats := ⟨u, 0, 0, 0⟩

/-- Feed a sequence of CPU usage samples through successive monitor
cycles (the CPU check of each cycle). -/
def runCpuSamples (st : MonitorState) (samples : List Rat) : MonitorState :=
  samples.foldl (fun s u => cpuCheck s (cpuOnly u)) st

-- ──────────────── derived notions used in the theorem statements ────────────────

/-- The function-call parts the cycle classifier dispatches as tool calls.
A part whose thought flag and truthy text route it into the thought
branch of the elif chain is not dispatched even if it also carries a
function call. -/
def toolCallsOf (parts : List Part) : List FunctionCall :=
  parts.filterMap fun p => if p.thought && textTruthy p then none else p.functionCall

/-- The texts collected into thought_parts, in part order. -/
def thoughtTextsOf (parts : List Part) : List String :=
  parts.filterMap fun p => if p.thought && textTruthy p then some (p.text.getD "") else none

/-- The texts collected into text_parts (plain answer text), in part order. -/
def plainTextsOf (parts : List Part) : List String :=
  parts.filterMap fun p =>
    if p.thought && textTruthy p then none
    else if p.functionCall.isSome then none
    else if textTruthy p then some (p.text.getD "") else none

/-- The stored function-response value for one dispatched call: execute,
truncate, then json.loads with the output fallback. -/
def fnResultOf (L : LoopParams) (fc : FunctionCall) : FnResult :=
  let rs := truncateResult (L.tools.execute fc.name fc.args)
  if L.jsonOk rs then FnResult.data rs else FnResult.output rs

/-- The tool_call/tool_result event pair each dispatched call emits, in
call order. -/
def toolPairEvents (L : LoopParams) (fcs : List FunctionCall) : List AgentEvent :=
  fcs.flatMap fun fc =>
    [.tool_call fc.name fc.args,
     .tool_result fc.name (truncateResult (L.tools.execute fc.name fc.args))]

-- ──────────────── concrete instances used by witnesses ────────────────

/-- A registry with one tool "t" whose handler answers "ok". -/
def demoTool : ToolDef := ⟨"t", "demo tool", [], fun _ => Except.ok "ok"⟩

def demoReg : ToolRegistry := ⟨[("t", demoTool)]⟩

/-- A model response whose single candidate carries one thought part and
one function call of tool "t". -/
def demoResp : ModelResponse :=
  ⟨[⟨"model", [⟨some "planning", true, none, none, none, none⟩,
               ⟨none, false, some ⟨"t", []⟩, none, none, none⟩]⟩]⟩

/-- Loop collaborators: the backend always answers demoResp, cancellation
is never requested, json.loads always fails (output fallback). -/
def demoL : LoopParams := ⟨"", demoReg, fun _ => Except.ok demoResp, fun _ => false, fun _ => false⟩

def demoS : Session := ⟨"s1", []⟩

/-- A session already holding 2 * max_history_turns = 40 turns when a new
run starts. -/
def demoS40 : Session := ⟨"s2", List.replicate 40 ⟨"user", [Part.mkText "x"]⟩⟩

/-- A model content part carrying an opaque continuation token on its
function-call part. -/
def demoTokenContent : Content :=
  ⟨"model", [⟨none, false, some ⟨"t", []⟩, none, some "OPAQUE-SIG-BYTES", none⟩]⟩

/-- Collaborators for the cancellation scenarios: the flag is observed
set at checkpoint 0 (before the first cycle's model call). -/
def demoLCancelA : LoopParams := { demoL with cancelSignal := fun k => k == 0 }

/-- Collaborators for mid-dispatch cancellation: the flag is observed set
at checkpoint 1, i.e. between tool call 1 and tool call 2. -/
def demoLCancelB : LoopParams := { demoL with cancelSignal := fun k => k == 1 }

/-- A response content carrying two tool calls. -/
def twoCallParts : List Part :=
  [⟨none, false, some ⟨"t", [("a", "1")]⟩, none, none, none⟩,
   ⟨none, false, some ⟨"u", []⟩, none, none, none⟩]

/-- A loop state at the start of a cycle's part processing. -/
def demoSt0 : LoopState := ⟨demoS, 0, 1, [], []⟩

/-- An active critical alert that has not yet triggered remediation. -/
def demoAlert : Alert :=
  ⟨"alert-0-1", .critical, "cpu", "CPU critically high",
   "CPU at 60% (threshold: 50.0%)", 0, false, false, ""⟩

/-- A monitor whose auto-heal is armed with a callback that raises. -/
def demoMon : MonitorState :=
  { initMonitor with auto_heal := true,
                     agent_callback := some fun _ => Except.error "boom",
                     alerts := [demoAlert],
                     alert_counter := 1 }

-- ───────────────────────────── theorems ─────────────────────────────

/-- C1: Iteration budget. The claimed behaviour cannot occur on the code
as written: AgentLoop.run reads config.ai.max_agent_iterations (loop.py
line 230), but AIConfig (config.py lines 13-26) declares no such field,
so attribute lookup fails and every run raises AttributeError right
after yielding the initial status event — zero model calls are ever
made, no tool_call event and no fallback message is ever emitted. -/
theorem C1_missing_iteration_budget_field
    (L : LoopParams) (goal activeCtx : String) (atts : List Attachment) (s : Session) :
    (AIConfig.default L.apiKey).getattr "max_agent_iterations" = none
    ∧ (runActual L goal activeCtx atts s).2 = some "AttributeError: max_agent_iterations"
    ∧ (runActual L goal activeCtx atts s).1.events = [.status "thinking"]
    ∧ (runActual L goal activeCtx atts s).1.calls = 0 := by
  refine ⟨rfl, ?_, ?_, ?_⟩ <;> simp [runActual, runPreamble, AIConfig.getattr]

/-- C8: ToolRegistry.execute is total and never propagates a failure: an
unregistered name yields the structured JSON error payload, a raising
handler is caught and converted to the same payload, and a succeeding
handler's string is returned as-is; the payload is a JSON object opening
with its "error" field. -/
theorem C8_execute_error_handling :
    (∀ (reg : ToolRegistry) (name : String) (args : Args),
        reg.get name = none →
        reg.execute name args = jsonError ("Unknown tool: " ++ name))
    ∧ (∀ (reg : ToolRegistry) (name : String) (args : Args) (t : ToolDef) (e : String),
        reg.get name = some t → t.handler args = Except.error e →
        reg.execute name args = jsonError e)
    ∧ (∀ (reg : ToolRegistry) (name : String) (args : Args) (t : ToolDef) (r : String),
        reg.get name = some t → t.handler args = Except.ok r →
        reg.execute name args = r)
    ∧ (∀ msg : String, ∃ rest, jsonError msg = "\x7b\"error\": \"" ++ rest) := by
  refine ⟨?_, ?_, ?_, fun msg => ⟨jsonEscape msg ++ "\"\x7d", rfl⟩⟩
  · intro reg name args h
    simp [ToolRegistry.execute, h]
  · intro reg name args t e h1 h2
    simp [ToolRegistry.execute, h1, h2]
  · intro reg name args t r h1 h2
    simp [ToolRegistry.execute, h1, h2]

theorem C8_execute_error_handling_witness :
    demoReg.execute "nope" [] = jsonError "Unknown tool: nope"
    ∧ demoReg.execute "t" [] = "ok" := by
  constructor
  · simpa using C8_execute_error_handling.1 demoReg "nope" [] rfl
  · exact C8_execute_error_handling.2.2.1 demoReg "t" [] demoTool "ok" rfl rfl

/-- C3, counterexample: on the CPU sample sequence [10, 60, 60, 20]
against warn = 15, crit = 50, exactly one critical alert is created (at
the second sample) and none is duplicated at the third, but after the
fourth sample that critical alert is still unresolved — 20 is at or
above the warning threshold, so the code takes the warning branch and
never reaches the resolve branch — contradicting the claimed
resolved = true. -/
theorem C3_counterexample_critical_unresolved :
    ((runCpuSamples initMonitor [10, 60]).alerts.map Alert.severity) = [Severity.critical]
    ∧ (runCpuSamples initMonitor [10, 60, 60]).alerts = (runCpuSamples initMonitor [10, 60]).alerts
    ∧ ((runCpuSamples initMonitor [10, 60, 60, 20]).alerts.find?
        fun a => a.title == "CPU critically high").map Alert.resolved = some false := by
  decide

/-- C3, amended: on [10, 60, 60, 20] with warn = 15, crit = 50, exactly
one critical alert is created at the second sample and no duplicate at
the third; at the fourth sample (20 ≥ warn) the critical alert remains
unresolved and a separate "CPU high" warning alert is created; only a
sample strictly below the warning threshold (a fifth sample of 10)
resolves the alerts. -/
theorem C3_alert_hysteresis_amended :
    (runCpuSamples initMonitor [10]).alerts = []
    ∧ (runCpuSamples initMonitor [10, 60]).alerts.map
        (fun a => (a.severity, a.title, a.resolved))
        = [(Severity.critical, "CPU critically high", false)]
    ∧ (runCpuSamples initMonitor [10, 60, 60]).alerts = (runCpuSamples initMonitor [10, 60]).alerts
    ∧ (runCpuSamples initMonitor [10, 60, 60, 20]).alerts.map
        (fun a => (a.severity, a.title, a.resolved))
        = [(Severity.critical, "CPU critically high", false),
           (Severity.warning, "CPU high", false)]
    ∧ (runCpuSamples initMonitor [10, 60, 60, 20, 10]).alerts.map
        (fun a => (a.title, a.resolved))
        = [("CPU critically high", true), ("CPU high", true)] := by
  decide

/-- C7: compaction of the conversation history. A history at or below the
max_turns trigger is unchanged; once the trigger is exceeded the live
count ends at or below summary_threshold; the compacted-turn counter
grows by exactly the number of turns removed; and an existing summary's
text is always a prefix of the new summary's text. -/
theorem C7_compaction_monotonicity :
    (∀ h : ConversationHistory, h.messages.length ≤ h.max_turns → maybeTrim h = h)
    ∧ (∀ h : ConversationHistory, h.max_turns < h.messages.length →
        (maybeTrim h).messages.length ≤ h.summary_threshold)
    ∧ (∀ h : ConversationHistory,
        summaryCount (maybeTrim h) =
          summaryCount h + (h.messages.length - (maybeTrim h).messages.length))
    ∧ (∀ (h : ConversationHistory) (s0 : ConversationSummary), h.summary = some s0 →
        ∃ s1 t, (maybeTrim h).summary = some s1 ∧ s1.text = s0.text ++ t) := by
  refine ⟨?_, ?_, ?_, ?_⟩
  · intro h hle
    simp [maybeTrim, hle]
  · intro h hlt
    rw [maybeTrim, if_neg (by omega)]
    by_cases h2 : h.messages.length ≤ h.summary_threshold
    · simp [h2]
    · simp only [h2, if_false]
      simp [List.length_drop]
      omega
  · intro h
    rw [maybeTrim]
    by_cases hle : h.messages.length ≤ h.max_turns
    · simp [hle]
    · rw [if_neg hle]
      by_cases h2 : h.messages.length ≤ h.summary_threshold
      · simp [h2]
      · simp only [h2, if_false]
        simp [summaryCount, List.length_drop, List.length_take]
        omega
  · intro h s0 hs
    rw [maybeTrim]
    by_cases hle : h.messages.length ≤ h.max_turns
    · exact ⟨s0, "", by simp [hle, hs], by simp⟩
    · rw [if_neg hle]
      by_cases h2 : h.messages.length ≤ h.summary_threshold
      · exact ⟨s0, "", by simp [h2, hs], by simp⟩
      · rw [if_neg h2]
        refine ⟨_, "\n\n" ++ compress (h.messages.take (h.messages.length - h.summary_threshold)),
          rfl, ?_⟩
        simp [hs, String.append_assoc]

theorem C7_compaction_monotonicity_witness :
    (maybeTrim ⟨"w", 2, 1, [⟨.user, "a", []⟩], some ⟨"old", 3⟩⟩
        = ⟨"w", 2, 1, [⟨.user, "a", []⟩], some ⟨"old", 3⟩⟩)
    ∧ (maybeTrim ⟨"w", 2, 1, [⟨.user, "a", []⟩, ⟨.model, "b", []⟩, ⟨.user, "c", []⟩],
        some ⟨"old", 3⟩⟩).messages.length ≤ 1
    ∧ (∃ s1 t, (maybeTrim ⟨"w", 2, 1,
        [⟨.user, "a", []⟩, ⟨.model, "b", []⟩, ⟨.user, "c", []⟩],
        some ⟨"old", 3⟩⟩).summary = some s1 ∧ s1.text = "old" ++ t) := by
  refine ⟨?_, ?_, ?_⟩
  · exact C7_compaction_monotonicity.1 _ (by decide)
  · exact C7_compaction_monotonicity.2.1 _ (by decide)
  · exact C7_compaction_monotonicity.2.2.2 _ ⟨"old", 3⟩ rfl

/-- Every non-trim session operation only appends turns, leaving the
already-stored turns untouched. -/
theorem applyOp_append (s : Session) (op : SessionOp) (h : op.isTrim = false) :
    ∃ d, (s.applyOp op).messages = s.messages ++ d := by
  cases op with
  | user parts => exact ⟨_, rfl⟩
  | model c => exact ⟨_, rfl⟩
  | funcResponses rs => exact ⟨_, rfl⟩
  | trimOp m => simp [SessionOp.isTrim] at h

theorem applyOps_noTrim (ops : List SessionOp) :
    ∀ s : Session, (∀ op ∈ ops, op.isTrim = false) →
    ∃ t, (s.applyOps ops).messages = s.messages ++ t := by
  induction ops with
  | nil => exact fun s _ => ⟨[], by simp [Session.applyOps]⟩
  | cons op ops ih =>
    intro s hops
    obtain ⟨d, hd⟩ := applyOp_append s op (hops op (by simp))
    obtain ⟨t, ht⟩ := ih (s.applyOp op) (fun o ho => hops o (by simp [ho]))
    refine ⟨d ++ t, ?_⟩
    simp only [Session.applyOps]
    rw [ht, hd, List.append_assoc]

/-- C4: continuation-token preservation. to_contents returns the stored
turns unchanged; a model turn stored raw (opaque thought_signature data
included) is still returned, byte-identical at its position, after any
sequence of further appends; and trim only ever discards oldest turns —
the surviving turns are returned untouched. -/
theorem C4_continuation_preservation :
    (∀ s : Session, s.to_contents = s.messages)
    ∧ (∀ (s : Session) (c : Content) (ops : List SessionOp),
        (∀ op ∈ ops, op.isTrim = false) →
        ((s.add_model_content c).applyOps ops).to_contents[s.messages.length]? = some c)
    ∧ (∀ (s : Session) (m : Nat), ∃ t, s.messages = t ++ (s.trim m).messages) := by
  refine ⟨fun s => rfl, ?_, ?_⟩
  · intro s c ops hops
    obtain ⟨t, ht⟩ := applyOps_noTrim ops (s.add_model_content c) hops
    rw [Session.to_contents, ht]
    show ((s.messages ++ [c]) ++ t)[s.messages.length]? = some c
    rw [List.getElem?_append, if_pos (by simp), List.getElem?_append, if_neg (by simp)]
    simp
  · intro s m
    rw [Session.trim]
    by_cases hgt : s.messages.length > m * 2
    · rw [if_pos hgt]
      by_cases hm : m * 2 = 0
      · exact ⟨[], by simp [takeLast, hm]⟩
      · refine ⟨s.messages.take (s.messages.length - m * 2), ?_⟩
        show s.messages = _ ++ takeLast s.messages (m * 2)
        rw [takeLast, if_neg hm, List.take_append_drop]
    · exact ⟨[], by simp [hgt]⟩

theorem C4_continuation_preservation_witness :
    ((demoS.add_model_content demoTokenContent).applyOps
        [SessionOp.user [Part.mkText "next"], SessionOp.funcResponses [("t", FnResult.output "r")]]
      ).to_contents[0]? = some demoTokenContent := by
  have h := C4_continuation_preservation.2.1 demoS demoTokenContent
    [SessionOp.user [Part.mkText "next"], SessionOp.funcResponses [("t", FnResult.output "r")]]
    (by decide)
  simpa [demoS] using h

/-- C10: Session.trim bounds history by outright discarding: when the
message count exceeds 2 * max_turns (for the positive max_turns the loop
always passes — config max_history_turns = 20) only the most recent
2 * max_turns messages are kept, with no summary (Session has no summary
at all: dropped turns and their continuation tokens are gone); at or
below the bound trim is the identity; and within a run the loop trims
only once after the initial user append, so after one tool-call cycle a
session that started full ends at 42 > 40 stored messages. -/
theorem C10_session_trim_discard :
    (∀ (s : Session) (m : Nat), 0 < m → 2 * m < s.messages.length →
        (s.trim m).messages = s.messages.drop (s.messages.length - 2 * m))
    ∧ (∀ (s : Session) (m : Nat), s.messages.length ≤ 2 * m → s.trim m = s)
    ∧ (runWithMaxIter demoL 1 "go" "" [] demoS40).session.messages.length = 42
    ∧ 2 * (AIConfig.default "").max_history_turns < 42 := by
  refine ⟨?_, ?_, by decide, by decide⟩
  · intro s m hm hlt
    rw [Session.trim, if_pos (by omega)]
    show takeLast s.messages (m * 2) = _
    rw [takeLast, if_neg (by omega), Nat.mul_comm]
  · intro s m hle
    rw [Session.trim, if_neg (by omega)]

theorem C10_session_trim_discard_witness :
    ((Session.mk "w" [⟨"user", []⟩, ⟨"model", []⟩, ⟨"user", []⟩]).trim 1).messages
        = [⟨"model", []⟩, ⟨"user", []⟩]
    ∧ (Session.mk "w" [⟨"user", []⟩]).trim 1 = Session.mk "w" [⟨"user", []⟩] := by
  constructor
  · rw [C10_session_trim_discard.1 (Session.mk "w" [⟨"user", []⟩, ⟨"model", []⟩, ⟨"user", []⟩]) 1
      (by decide) (by decide)]
    decide
  · exact C10_session_trim_discard.2.1 (Session.mk "w" [⟨"user", []⟩]) 1 (by decide)

/-- C2, counterexample: for a cycle whose model response carries one
thought part ("planning") and one tool call ("t"), the emitted events
put the tool_call/tool_result pair (indices 1 and 2) before the thought
event (index 3) — the source collects thought parts during the part loop
and only yields the thought event after it (loop.py line 354) — refuting
the claimed thought-first ordering. -/
theorem C2_counterexample_thought_after_pairs :
    (runWithMaxIter demoL 1 "go" "" [] demoS).events
      = [.status "thinking", .tool_call "t" [], .tool_result "t" "ok",
         .thought "planning", .text maxIterMsg, .done]
    ∧ (runWithMaxIter demoL 1 "go" "" [] demoS).events[1]? = some (.tool_call "t" [])
    ∧ (runWithMaxIter demoL 1 "go" "" [] demoS).events[3]? = some (.thought "planning") := by
  decide

/-- With no cancellation pending, the part loop processes every part to
the end: it emits exactly one tool_call/tool_result pair per dispatched
call, in call order; consumes one checkpoint per call; executes every
call; and accumulates thought texts, plain texts and function responses
in part order. -/
theorem processParts_noCancel (L : LoopParams) (hnc : ∀ k, L.cancelSignal k = false)
    (parts : List Part) : ∀ (st : LoopState) (acc : PartAcc),
    processParts L parts st acc =
      ({ st with
          events := st.events ++ toolPairEvents L (toolCallsOf parts),
          ck := st.ck + (toolCallsOf parts).length,
          executed := st.executed ++ (toolCallsOf parts).map fun fc => (fc.name, fc.args) },
       ⟨acc.hasTC || !(toolCallsOf parts).isEmpty,
        acc.texts ++ plainTextsOf parts,
        acc.thoughts ++ thoughtTextsOf parts,
        acc.frs ++ (toolCallsOf parts).map fun fc => (fc.name, fnResultOf L fc)⟩,
       false) := by
  induction parts with
  | nil =>
    intro st acc
    simp [processParts, toolCallsOf, thoughtTextsOf, plainTextsOf, toolPairEvents]
  | cons p rest ih =>
    intro st acc
    by_cases h1 : (p.thought && textTruthy p) = true
    · obtain ⟨hp, ht⟩ : p.thought = true ∧ textTruthy p = true := by
        simpa [Bool.and_eq_true] using h1
      simp only [processParts, h1, if_true, ih]
      simp [toolCallsOf, thoughtTextsOf, plainTextsOf, toolPairEvents,
        List.filterMap_cons, hp, ht, List.append_assoc]
    · have h1' : ¬(p.thought = true ∧ textTruthy p = true) := by
        simpa [Bool.and_eq_true] using h1
      cases hfc : p.functionCall with
      | some fc =>
        simp only [processParts, h1, if_false, hfc, hnc, ih]
        simp [toolCallsOf, thoughtTextsOf, plainTextsOf, toolPairEvents, fnResultOf,
          List.filterMap_cons, List.flatMap_cons, h1', hfc, List.append_assoc,
          Nat.add_comm, Nat.add_assoc, Nat.add_left_comm]
      | none =>
        by_cases h2 : textTruthy p = true
        · have hp : ¬(p.thought = true) := fun hpp => h1' ⟨hpp, h2⟩
          simp only [processParts, h1, if_false, hfc, h2, if_true, ih]
          simp [toolCallsOf, thoughtTextsOf, plainTextsOf, toolPairEvents,
            List.filterMap_cons, h1', hp, hfc, h2, List.append_assoc]
        · simp only [processParts, h1, if_false, hfc, h2, ih]
          simp [toolCallsOf, thoughtTextsOf, plainTextsOf, toolPairEvents,
            List.filterMap_cons, h1', hfc, h2, List.append_assoc]

theorem toolCallsOf_cons_thought (p : Part) (rest : List Part)
    (h : (p.thought && textTruthy p) = true) :
    toolCallsOf (p :: rest) = toolCallsOf rest := by
  obtain ⟨hp, ht⟩ : p.thought = true ∧ textTruthy p = true := by
    simpa [Bool.and_eq_true] using h
  simp [toolCallsOf, List.filterMap_cons, hp, ht]

theorem toolCallsOf_cons_none (p : Part) (rest : List Part)
    (hfc : p.functionCall = none) :
    toolCallsOf (p :: rest) = toolCallsOf rest := by
  by_cases h1 : p.thought = true ∧ textTruthy p = true <;>
    simp [toolCallsOf, List.filterMap_cons, h1, hfc]

theorem toolCallsOf_cons_some (p : Part) (rest : List Part) (fc : FunctionCall)
    (h1 : ¬(p.thought && textTruthy p) = true) (hfc : p.functionCall = some fc) :
    toolCallsOf (p :: rest) = fc :: toolCallsOf rest := by
  have h1' : ¬(p.thought = true ∧ textTruthy p = true) := by
    simpa [Bool.and_eq_true] using h1
  simp [toolCallsOf, List.filterMap_cons, h1', hfc]

/-- If the cancellation flag is first observed set at the checkpoint
preceding the (N+1)-st tool execution of one response, the part loop
stops there: it executes exactly the first N calls, emits the pairs for
those N calls followed by the bare tool_call event of call N+1 and the
stopped/done events, and returns early. -/
theorem processParts_cancelAt (L : LoopParams) (parts : List Part) :
    ∀ (st : LoopState) (acc : PartAcc) (N : Nat),
    N < (toolCallsOf parts).length →
    (∀ i, i < N → L.cancelSignal (st.ck + i) = false) →
    L.cancelSignal (st.ck + N) = true →
    (processParts L parts st acc).2.2 = true
    ∧ (processParts L parts st acc).1.executed =
        st.executed ++ ((toolCallsOf parts).take N).map (fun fc => (fc.name, fc.args))
    ∧ ∃ fcN, (toolCallsOf parts)[N]? = some fcN
        ∧ (processParts L parts st acc).1.events =
            st.events ++ toolPairEvents L ((toolCallsOf parts).take N)
              ++ [.tool_call fcN.name fcN.args, .text stoppedMsg, .done] := by
  induction parts with
  | nil =>
    intro st acc N hlt
    simp [toolCallsOf] at hlt
  | cons p rest ih =>
    intro st acc N hlt hbef hat
    by_cases h1 : (p.thought && textTruthy p) = true
    · have he := toolCallsOf_cons_thought p rest h1
      have hlt' : N < (toolCallsOf rest).length := he ▸ hlt
      obtain ⟨ha, hb, fcN, hfcN, hev⟩ :=
        ih st { acc with thoughts := acc.thoughts ++ [p.text.getD ""] } N hlt' hbef hat
      have hred : processParts L (p :: rest) st acc =
          processParts L rest st { acc with thoughts := acc.thoughts ++ [p.text.getD ""] } := by
        simp [processParts, h1]
      rw [hred, he]
      exact ⟨ha, hb, fcN, hfcN, hev⟩
    · cases hfc : p.functionCall with
      | none =>
        have he := toolCallsOf_cons_none p rest hfc
        have hlt' : N < (toolCallsOf rest).length := he ▸ hlt
        by_cases h2 : textTruthy p = true
        · have hp : p.thought = false := by
            revert h1
            cases p.thought <;> simp [h2]
          obtain ⟨ha, hb, fcN, hfcN, hev⟩ :=
            ih st { acc with texts := acc.texts ++ [p.text.getD ""] } N hlt' hbef hat
          have hred : processParts L (p :: rest) st acc =
              processParts L rest st { acc with texts := acc.texts ++ [p.text.getD ""] } := by
            simp [processParts, hp, hfc, h2]
          rw [hred, he]
          exact ⟨ha, hb, fcN, hfcN, hev⟩
        · obtain ⟨ha, hb, fcN, hfcN, hev⟩ := ih st acc N hlt' hbef hat
          have hred : processParts L (p :: rest) st acc = processParts L rest st acc := by
            simp [processParts, h1, hfc, h2]
          rw [hred, he]
          exact ⟨ha, hb, fcN, hfcN, hev⟩
      | some fc =>
        have he := toolCallsOf_cons_some p rest fc h1 hfc
        cases N with
        | zero =>
          have hat0 : L.cancelSignal st.ck = true := by simpa using hat
          rw [he]
          refine ⟨?_, ?_, fc, by simp, ?_⟩ <;>
            simp [processParts, h1, hfc, hat0, toolPairEvents]
        | succ n =>
          have h0 : L.cancelSignal st.ck = false := by
            have h := hbef 0 (Nat.succ_pos n)
            simpa using h
          have hlt' : n < (toolCallsOf rest).length := by
            rw [he] at hlt
            exact Nat.lt_of_succ_lt_succ hlt
          have hbef' : ∀ i, i < n → L.cancelSignal (st.ck + 1 + i) = false := by
            intro i hi
            have h := hbef (i + 1) (Nat.succ_lt_succ hi)
            rw [show st.ck + 1 + i = st.ck + (i + 1) by omega]
            exact h
          have hat' : L.cancelSignal (st.ck + 1 + n) = true := by
            rw [show st.ck + 1 + n = st.ck + (n + 1) by omega]
            exact hat
          obtain ⟨ha, hb, fcN, hfcN, hev⟩ :=
            ih { st with ck := st.ck + 1, events := st.events ++ [AgentEvent.tool_call fc.name fc.args] ++ [AgentEvent.tool_result fc.name (truncateResult (L.tools.execute fc.name fc.args))], executed := st.executed ++ [(fc.name, fc.args)] } { acc with hasTC := true, frs := acc.frs ++ [(fc.name, if L.jsonOk (truncateResult (L.tools.execute fc.name fc.args)) then FnResult.data (truncateResult (L.tools.execute fc.name fc.args)) else FnResult.output (truncateResult (L.tools.execute fc.name fc.args)))] } n hlt' hbef' hat'
          have hred : processParts L (p :: rest) st acc =
              processParts L rest { st with ck := st.ck + 1, events := st.events ++ [AgentEvent.tool_call fc.name fc.args] ++ [AgentEvent.tool_result fc.name (truncateResult (L.tools.execute fc.name fc.args))], executed := st.executed ++ [(fc.name, fc.args)] } { acc with hasTC := true, frs := acc.frs ++ [(fc.name, if L.jsonOk (truncateResult (L.tools.execute fc.name fc.args)) then FnResult.data (truncateResult (L.tools.execute fc.name fc.args)) else FnResult.output (truncateResult (L.tools.execute fc.name fc.args)))] } := by
            simp [processParts, h1, hfc, h0]
          rw [hred, he]
          refine ⟨ha, ?_, fcN, ?_, ?_⟩
          · rw [hb]
            simp [List.take_succ_cons, List.append_assoc]
          · simpa using hfcN
          · rw [hev]
            simp [List.take_succ_cons, toolPairEvents, List.flatMap_cons, List.append_assoc]

/-- C2, amended: for every cycle whose model response carries both thought
parts and tool calls (and no cancellation fires), the events of the
cycle are emitted as: the tool_call/tool_result pairs first, in the
order the calls were received, then the single combined thought event,
then — only when plain text also accompanied the calls — a trailing
thought event carrying it; the loop then proceeds to the next cycle. The
source collects thought parts during the part loop and yields the
thought event only after it (loop.py line 354), so the thought event
follows the pairs rather than preceding them as the claim stated. -/
theorem C2_cycle_event_order (L : LoopParams) (parts : List Part) (st : LoopState)
    (hnc : ∀ k, L.cancelSignal k = false)
    (htc : toolCallsOf parts ≠ [])
    (hth : thoughtTextsOf parts ≠ []) :
    (cycleStep L parts st).1.events =
      st.events ++ toolPairEvents L (toolCallsOf parts)
        ++ [.thought (joinLines (thoughtTextsOf parts))]
        ++ (if (plainTextsOf parts).isEmpty then []
            else [.thought (joinLines (plainTextsOf parts))])
    ∧ (cycleStep L parts st).2 = CycleOutcome.next := by
  have hth' : (thoughtTextsOf parts).isEmpty = false := by
    simpa [List.isEmpty_iff] using hth
  have htc' : (toolCallsOf parts).isEmpty = false := by
    simpa [List.isEmpty_iff] using htc
  rw [cycleStep, processParts_noCancel L hnc parts st PartAcc.init]
  by_cases hpt : (plainTextsOf parts).isEmpty
  · simp [PartAcc.init, hth', htc', htc, hpt, List.append_assoc]
  · simp [PartAcc.init, hth', htc', htc, hpt, List.append_assoc]

theorem C2_cycle_event_order_witness :
    (cycleStep demoL
        [⟨some "planning", true, none, none, none, none⟩,
         ⟨none, false, some ⟨"t", []⟩, none, none, none⟩] demoSt0).1.events
      = [.tool_call "t" [], .tool_result "t" "ok", .thought "planning"] := by
  have h := C2_cycle_event_order demoL
    [⟨some "planning", true, none, none, none, none⟩,
     ⟨none, false, some ⟨"t", []⟩, none, none, none⟩] demoSt0
    (fun _ => rfl) (by decide) (by decide)
  rw [h.1]
  decide

/-- C5: for every model response with at least one dispatched tool call
(and no cancellation), the cycle appends exactly one history turn for
the results: a single user-role turn containing one function-response
entry per call, in call order — results are never split across turns. -/
theorem C5_batched_tool_results (L : LoopParams) (parts : List Part) (st : LoopState)
    (hnc : ∀ k, L.cancelSignal k = false)
    (htc : toolCallsOf parts ≠ []) :
    (cycleStep L parts st).1.session.messages =
      st.session.messages
        ++ [⟨"user", (toolCallsOf parts).map fun fc =>
              Part.mkFunctionResponse fc.name (fnResultOf L fc)⟩]
    ∧ ((toolCallsOf parts).map fun fc =>
          Part.mkFunctionResponse fc.name (fnResultOf L fc)).length
        = (toolCallsOf parts).length := by
  have htc' : (toolCallsOf parts).isEmpty = false := by
    simpa [List.isEmpty_iff] using htc
  rw [cycleStep, processParts_noCancel L hnc parts st PartAcc.init]
  refine ⟨?_, by simp⟩
  by_cases hthe : (thoughtTextsOf parts).isEmpty <;>
    by_cases hpt : (plainTextsOf parts).isEmpty <;>
    simp [PartAcc.init, htc', htc, hthe, hpt, Session.add_function_responses,
      List.map_map, Function.comp]

theorem C5_batched_tool_results_witness :
    (cycleStep demoL twoCallParts demoSt0).1.session.messages
      = [⟨"user", [Part.mkFunctionResponse "t" (FnResult.output "ok"),
                   Part.mkFunctionResponse "u"
                     (FnResult.output (jsonError "Unknown tool: u"))]⟩] := by
  have h := C5_batched_tool_results demoL twoCallParts demoSt0 (fun _ => rfl) (by decide)
  rw [h.1]
  decide

/-- C6: the two cooperative cancellation checkpoints. (A) If the flag is
observed set at the checkpoint opening a cycle, that cycle makes no
model call: the loop returns with only the stopped text event and the
done event appended (the mark is discarded by the check, as in the
source). (B) If during one response's dispatch the flag is first
observed set at the checkpoint before the (N+1)-st tool execution, the
part loop returns early: exactly the first N calls are executed, call
N+1 onward never runs, and the stopped/done events close the stream. -/
theorem C6_cancellation_checkpoints :
    (∀ (L : LoopParams) (st : LoopState) (b : Nat),
        L.cancelSignal st.ck = true →
        runCycles L (b + 1) st =
          { st with ck := st.ck + 1,
                    events := st.events ++ [.text stoppedMsg, .done] })
    ∧ (∀ (L : LoopParams) (parts : List Part) (st : LoopState) (N : Nat),
        N < (toolCallsOf parts).length →
        (∀ i, i < N → L.cancelSignal (st.ck + i) = false) →
        L.cancelSignal (st.ck + N) = true →
        (processParts L parts st PartAcc.init).2.2 = true
        ∧ (processParts L parts st PartAcc.init).1.executed =
            st.executed ++ ((toolCallsOf parts).take N).map (fun fc => (fc.name, fc.args))
        ∧ ∃ fcN, (toolCallsOf parts)[N]? = some fcN
            ∧ (processParts L parts st PartAcc.init).1.events =
                st.events ++ toolPairEvents L ((toolCallsOf parts).take N)
                  ++ [.tool_call fcN.name fcN.args, .text stoppedMsg, .done]) := by
  constructor
  · intro L st b h
    simp [runCycles, h]
  · intro L parts st N hlt hbef hat
    exact processParts_cancelAt L parts st PartAcc.init N hlt hbef hat

theorem C6_cancellation_checkpoints_witness :
    runCycles demoLCancelA 3 demoSt0
      = { demoSt0 with ck := 1, events := [.text stoppedMsg, .done] }
    ∧ (processParts demoLCancelB twoCallParts demoSt0 PartAcc.init).1.executed
        = [("t", [("a", "1")])]
    ∧ (processParts demoLCancelB twoCallParts demoSt0 PartAcc.init).2.2 = true := by
  refine ⟨?_, ?_, ?_⟩
  · have h := C6_cancellation_checkpoints.1 demoLCancelA demoSt0 2 (by decide)
    rw [h]
    decide
  · have h := (C6_cancellation_checkpoints.2 demoLCancelB twoCallParts demoSt0 1
      (by decide) (by decide) (by decide)).2.1
    rw [h]
    decide
  · exact (C6_cancellation_checkpoints.2 demoLCancelB twoCallParts demoSt0 1
      (by decide) (by decide) (by decide)).1

/-- find? after an id-addressed in-place update: updating the alert with a
given id rewrites exactly the alert find? locates, provided the update
preserves ids. -/
theorem find?_update_id (l : List Alert) (id : String) (f : Alert → Alert)
    (hf : ∀ b, (f b).id = b.id) :
    (l.map fun b => if b.id == id then f b else b).find? (fun x => x.id == id)
      = (l.find? fun x => x.id == id).map f := by
  induction l with
  | nil => simp
  | cons b l ih =>
    by_cases hb : (b.id == id) = true
    · rw [List.map_cons, if_pos hb,
        @List.find?_cons_of_pos _ (fun x => x.id == id) (f b) _
          (show ((f b).id == id) = true by rw [hf b]; exact hb),
        @List.find?_cons_of_pos _ (fun x => x.id == id) b _ hb, Option.map_some']
    · rw [List.map_cons, if_neg hb,
        @List.find?_cons_of_neg _ (fun x => x.id == id) b _ hb,
        @List.find?_cons_of_neg _ (fun x => x.id == id) b _ hb, ih]

/-- A _maybe_auto_heal call on an alert already flagged auto_healed (or
with no callback registered) is a no-op making no callback invocation. -/
theorem maybeAutoHeal_healed (st : MonitorState) (idv goal : String) (a2 : Alert)
    (hfind : (st.alerts.find? fun x => x.id == idv) = some a2)
    (hhealed : a2.auto_healed = true) :
    maybeAutoHeal st idv goal = (st, 0) := by
  rw [maybeAutoHeal]
  cases hc : st.agent_callback with
  | none => simp [hc, hfind]
  | some cb2 => simp [hc, hfind, hhealed]

/-- C9: auto-heal idempotency and failure absorption. With auto_heal
enabled, a registered callback, and an alert not yet remediated, one
_maybe_auto_heal call invokes the callback exactly once and leaves the
alert flagged auto_healed = true — also when the callback raises, since
the flag is set before the invocation and the exception is caught (the
call returns a value normally, so the monitor cycle survives); and a
second call on the resulting state performs no further invocation and
changes nothing. -/
theorem C9_auto_heal_idempotency (st : MonitorState) (a : Alert)
    (cb : String → Except String (Option String)) (goal : String)
    (hcb : st.agent_callback = some cb)
    (hfind : (st.alerts.find? fun x => x.id == a.id) = some a)
    (hah : st.auto_heal = true)
    (hnot : a.auto_healed = false) :
    (maybeAutoHeal st a.id goal).2 = 1
    ∧ (∃ a1, ((maybeAutoHeal st a.id goal).1.alerts.find? fun x => x.id == a.id) = some a1
        ∧ a1.auto_healed = true)
    ∧ (∀ e, cb goal = Except.error e →
        ((maybeAutoHeal st a.id goal).1.alerts.find? fun x => x.id == a.id)
          = some { a with auto_healed := true })
    ∧ maybeAutoHeal (maybeAutoHeal st a.id goal).1 a.id goal
        = ((maybeAutoHeal st a.id goal).1, 0) := by
  have hf1 : ∀ b : Alert, ({ b with auto_healed := true } : Alert).id = b.id := fun b => rfl
  cases hr : cb goal with
  | ok r =>
    have hf2 : ∀ b : Alert, ({ b with agent_response := r.getD "" } : Alert).id = b.id :=
      fun b => rfl
    have hM : maybeAutoHeal st a.id goal =
        (updateAlert (updateAlert st a.id fun x => { x with auto_healed := true }) a.id
          fun x => { x with agent_response := r.getD "" }, 1) := by
      rw [maybeAutoHeal]
      simp [hcb, hfind, hah, hnot, hr]
    have hfind2 : ((maybeAutoHeal st a.id goal).1.alerts.find? fun x => x.id == a.id)
        = some { a with auto_healed := true, agent_response := r.getD "" } := by
      rw [hM]
      simp only [updateAlert]
      rw [find?_update_id _ _ _ hf2, find?_update_id _ _ _ hf1, hfind]
      rfl
    refine ⟨by rw [hM], ⟨_, hfind2, rfl⟩, ?_, ?_⟩
    · intro e he
      exact absurd he (by simp)
    · exact maybeAutoHeal_healed _ _ _ _ hfind2 rfl
  | error e0 =>
    have hM : maybeAutoHeal st a.id goal =
        (updateAlert st a.id fun x => { x with auto_healed := true }, 1) := by
      rw [maybeAutoHeal]
      simp [hcb, hfind, hah, hnot, hr]
    have hfind2 : ((maybeAutoHeal st a.id goal).1.alerts.find? fun x => x.id == a.id)
        = some { a with auto_healed := true } := by
      rw [hM]
      simp only [updateAlert]
      rw [find?_update_id _ _ _ hf1, hfind]
      rfl
    refine ⟨by rw [hM], ⟨_, hfind2, rfl⟩, fun e he => hfind2, ?_⟩
    exact maybeAutoHeal_healed _ _ _ _ hfind2 rfl

theorem C9_auto_heal_idempotency_witness :
    (maybeAutoHeal demoMon demoAlert.id "diagnose the cpu spike").2 = 1
    ∧ ((maybeAutoHeal demoMon demoAlert.id "diagnose the cpu spike").1.alerts.find?
        fun x => x.id == demoAlert.id) = some { demoAlert with auto_healed := true }
    ∧ maybeAutoHeal (maybeAutoHeal demoMon demoAlert.id "diagnose the cpu spike").1
        demoAlert.id "diagnose the cpu spike"
      = ((maybeAutoHeal demoMon demoAlert.id "diagnose the cpu spike").1, 0) := by
  have h := C9_auto_heal_idempotency demoMon demoAlert
    (fun _ => Except.error "boom") "diagnose the cpu spike"
    rfl (by decide) rfl rfl
  exact ⟨h.1, h.2.2.1 "boom" rfl, h.2.2.2⟩

end Muchovha
